import Mathlib

/-!
Verification of the c-discover peer-discovery / master-election core.

The definitions below are a shallow embedding of `discover.c`:

* JSON values (the cJSON tree) are modelled by the inductive `Json`,
  with C doubles rendered as rationals;
* the peer table (a doubly-linked list of `discover_node_t` traversed in
  insertion order) is modelled by a `List Node`;
* the channel registry (a singly-linked list of `discover_channel_t`)
  is modelled by a `List Channel`, where the C callback/user pointers are
  modelled by an identifier (`Option Nat`, `none` standing for `NULL`);
* POSIX timestamps (`time_t`) and the millisecond options are `Int`,
  and the C truncating integer division `/ 1000` is `Int.div`;
* the POSIX regex engine (`regcomp` with `REG_NOSUB | REG_EXTENDED`
  followed by `regexec`), which is an external library and not part of
  this repository, is abstracted as a parameter
  `matchER : String → String → Option Bool` where `none` models a
  pattern that fails to compile and `some b` the match outcome.

Each function keeps the name of the C function it embeds.
-/

set_option linter.unusedVariables false

namespace CDiscover

/-- JSON values, mirroring the cJSON tree used by discover.c. C doubles are
modelled as rationals. -/
inductive Json where
  | null : Json
  | bool (b : Bool) : Json
  | num (q : ℚ) : Json
  | str (s : String) : Json
  | arr (items : List Json) : Json
  | obj (fields : List (String × Json)) : Json

/-- Model of `cJSON_GetObjectItemCaseSensitive`: on an object, return the
first field whose name matches exactly; on anything else return `none`. -/
def Json.getCS : Json → String → Option Json
  | .obj fields, key => List.lookup key fields
  | _, _ => none

/-- Model of `cJSON_IsObject`. -/
def Json.isObj : Json → Bool
  | .obj _ => true
  | _ => false

/-- The `data` block of a peer record (`discover_node_data_t`). -/
structure NodeData where
  is_master : Bool
  is_master_eligible : Bool
  weight : ℚ
  address : String
  advertisement : Option Json

/-- A peer record (`discover_node_t`); list position models the position in
the doubly-linked node list. -/
structure Node where
  pid : String
  iid : String
  hostname : String
  address : String
  port : Nat
  last_seen : Int
  data : NodeData

/-- The option block of a discover instance (`discover_options_t`).
Strings that may be `NULL` in C are `Option String`. -/
structure Options where
  hello_interval : Int
  check_interval : Int
  node_timeout : Int
  master_timeout : Int
  address : String
  port : Nat
  broadcast : String
  multicast : Option String
  multicast_ttl : Nat
  unicast : Option String
  key : Option String
  masters_required : Int
  weight : ℚ
  client : Bool
  reuse_addr : Bool
  ignore_process : Bool
  ignore_instance : Bool
  advertisement : Option Json
  hostname : String

/-- The value passed to `discover_set_option` through the C `void *`
argument, tagged with the type the corresponding branch casts it to. -/
inductive OptionValue where
  | int (n : Int) : OptionValue
  | u16 (n : Nat) : OptionValue
  | u8 (n : Nat) : OptionValue
  | num (q : ℚ) : OptionValue
  | bool (b : Bool) : OptionValue
  | str (s : String) : OptionValue
  | json (j : Json) : OptionValue

/-- Model of `discover_set_option` (discover.c). Returns the new option
block and the C return code (`0` success, `-1` failure). Each branch reads
the value at the type the C code casts the pointer to; passing a value of
another type to a recognized option is undefined behavior in the C source
(a wild pointer cast) and is modelled as failure without change. -/
def discover_set_option (o : Options) (option : String) (value : OptionValue) :
    Options × Int :=
  if option = "helloInterval" then
    match value with
    | .int n => ({ o with hello_interval := n }, 0)
    | _ => (o, -1)
  else if option = "checkInterval" then
    match value with
    | .int tmp =>
      if tmp ≤ o.node_timeout then ({ o with check_interval := tmp }, 0) else (o, -1)
    | _ => (o, -1)
  else if option = "nodeTimeout" then
    match value with
    | .int tmp =>
      if o.check_interval ≤ tmp ∧ tmp ≤ o.master_timeout then
        ({ o with node_timeout := tmp }, 0)
      else (o, -1)
    | _ => (o, -1)
  else if option = "masterTimeout" then
    match value with
    | .int tmp =>
      if o.node_timeout ≤ tmp then ({ o with master_timeout := tmp }, 0) else (o, -1)
    | _ => (o, -1)
  else if option = "address" then
    match value with
    | .str s => ({ o with address := s }, 0)
    | _ => (o, -1)
  else if option = "port" then
    match value with
    | .u16 n => ({ o with port := n }, 0)
    | _ => (o, -1)
  else if option = "broadcast" then
    match value with
    | .str s => ({ o with broadcast := s }, 0)
    | _ => (o, -1)
  else if option = "multicast" then
    match value with
    | .str s => ({ o with multicast := some s }, 0)
    | _ => (o, -1)
  else if option = "multicastTTL" then
    match value with
    | .u8 n => ({ o with multicast_ttl := n }, 0)
    | _ => (o, -1)
  else if option = "unicast" then
    match value with
    | .str s => ({ o with unicast := some s }, 0)
    | _ => (o, -1)
  else if option = "key" then
    match value with
    | .str s => ({ o with key := some s }, 0)
    | _ => (o, -1)
  else if option = "mastersRequired" then
    match value with
    | .int n => ({ o with masters_required := n }, 0)
    | _ => (o, -1)
  else if option = "weight" then
    match value with
    | .num q => ({ o with weight := q }, 0)
    | _ => (o, -1)
  else if option = "client" then
    match value with
    | .bool b => ({ o with client := b }, 0)
    | _ => (o, -1)
  else if option = "reuseAddr" then
    match value with
    | .bool b => ({ o with reuse_addr := b }, 0)
    | _ => (o, -1)
  else if option = "ignoreProcess" then
    match value with
    | .bool b => ({ o with ignore_process := b }, 0)
    | _ => (o, -1)
  else if option = "ignoreInstance" then
    match value with
    | .bool b => ({ o with ignore_instance := b }, 0)
    | _ => (o, -1)
  else if option = "advertisement" then
    match value with
    | .json j => ({ o with advertisement := some j }, 0)
    | _ => (o, -1)
  else if option = "hostname" then
    match value with
    | .str s => ({ o with hostname := s }, 0)
    | _ => (o, -1)
  else (o, -1)

/-- The option names recognized by `discover_set_option`. -/
def discover_option_names : List String :=
  ["helloInterval", "checkInterval", "nodeTimeout", "masterTimeout", "address",
   "port", "broadcast", "multicast", "multicastTTL", "unicast", "key",
   "mastersRequired", "weight", "client", "reuseAddr", "ignoreProcess",
   "ignoreInstance", "advertisement", "hostname"]

/-- A channel subscription (`discover_channel_t`): the stored event/regex
pattern, the callback function pointer and the user pointer. Pointers are
modelled by identifiers, `none` standing for `NULL`. -/
structure Channel where
  event : String
  fct : Option Nat
  user : Option Nat
deriving DecidableEq

/-- Model of `discover_join` (discover.c): walk the channel list; if a
channel with exactly this event string exists, replace its callback and
user data in place; otherwise append a new channel at the end of the
list. -/
def discover_join (event : String) (fct : Option Nat) (user : Option Nat) :
    List Channel → List Channel
  | [] => [⟨event, fct, user⟩]
  | c :: rest =>
    if c.event = event then { c with fct := fct, user := user } :: rest
    else c :: discover_join event fct user rest

/-- Model of `discover_leave` (discover.c): remove the first channel whose
event string matches exactly, if any. -/
def discover_leave (event : String) : List Channel → List Channel
  | [] => []
  | c :: rest => if c.event = event then rest else c :: discover_leave event rest

/-- One invocation of a channel callback: the callback id, the user data,
the literal event string and the JSON payload handed to it. -/
structure ChannelCall where
  fct : Nat
  user : Option Nat
  event : String
  payload : Json

/-- Model of the channel loop of `discover_message_cb` (discover.c): for
each channel with a non-`NULL` callback whose stored pattern compiles
(`regcomp`, `REG_NOSUB | REG_EXTENDED`) and matches the literal event
string (`regexec`), invoke the callback with the event string and the
full parsed JSON object. The regex engine is the external parameter
`matchER` (`none` = pattern fails to compile). -/
def discover_dispatch (matchER : String → String → Option Bool)
    (event : String) (json : Json) : List Channel → List ChannelCall
  | [] => []
  | c :: rest =>
    (match c.fct with
     | some f =>
       if matchER c.event event = some true then
         [⟨f, c.user, event, json⟩]
       else []
     | none => []) ++ discover_dispatch matchER event json rest

/-- The fields extracted from a well-formed hello datagram by
`discover_message_cb` before the peer table is updated. -/
structure Hello where
  pid : String
  iid : String
  hostname : String
  is_master : Bool
  is_master_eligible : Bool
  weight : ℚ
  address : String
  advertisement : Option Json

/-- The peer record built from a hello by `discover_message_cb` when no
record with this `(pid, iid)` exists yet. -/
def discover_make_node (ip : String) (port : Nat) (now : Int) (h : Hello) : Node :=
  { pid := h.pid, iid := h.iid, hostname := h.hostname, address := ip,
    port := port, last_seen := now,
    data := { is_master := h.is_master, is_master_eligible := h.is_master_eligible,
              weight := h.weight, address := h.address,
              advertisement := h.advertisement } }

/-- The in-place update `discover_message_cb` performs on an existing peer
record when a hello with its `(pid, iid)` arrives: every mutable field is
replaced and `last_seen` refreshed; `pid` and `iid` are kept. -/
def discover_update_node (n : Node) (ip : String) (port : Nat) (now : Int)
    (h : Hello) : Node :=
  { n with
    hostname := h.hostname, address := ip, port := port, last_seen := now,
    data := { is_master := h.is_master, is_master_eligible := h.is_master_eligible,
              weight := h.weight, address := h.address,
              advertisement := h.advertisement } }

/-- The search predicate of `discover_message_cb`: a stored record matches
the sender when both UUID strings compare equal (`strcmp`). -/
def discover_node_matches (h : Hello) (n : Node) : Bool :=
  n.pid == h.pid && n.iid == h.iid

/-- The peer-table update of `discover_message_cb` (discover.c): search the
node list for the first record with the sender's `(pid, iid)`; if found,
update it in place; otherwise append a fresh record at the end of the
list. Returns the new list, the touched record, the `is_new` flag and the
record's pre-update `is_master` flag (`false` for a new record). -/
def discover_upsert (ip : String) (port : Nat) (now : Int) (h : Hello) :
    List Node → List Node × Node × Bool × Bool
  | [] =>
    let n := discover_make_node ip port now h
    ([n], n, true, false)
  | m :: rest =>
    if discover_node_matches h m then
      let n := discover_update_node m ip port now h
      (n :: rest, n, false, m.data.is_master)
    else
      let r := discover_upsert ip port now h rest
      (m :: r.1, r.2)

/-- A lifecycle callback fired by the hello branch of
`discover_message_cb`, carrying the peer record handed to it. -/
inductive HelloCb where
  | added (n : Node) : HelloCb
  | master (n : Node) : HelloCb
  | helloReceived (n : Node) : HelloCb

/-- Whether a hello-branch callback is the `added` callback. -/
def HelloCb.isAdded : HelloCb → Bool
  | .added _ => true
  | _ => false

/-- The hello branch of `discover_message_cb` (discover.c): update the
peer table, then invoke — in this order — the `added` callback if the
record is new, the `master` callback if the record is a master and is new
or was not a master before, and always the `helloReceived` callback. -/
def discover_process_hello (nodes : List Node) (ip : String) (port : Nat)
    (now : Int) (h : Hello) : List Node × List HelloCb :=
  let r := discover_upsert ip port now h nodes
  let n := r.2.1
  let is_new := r.2.2.1
  let was_master := r.2.2.2
  (r.1,
    (if is_new then [HelloCb.added n] else []) ++
    (if n.data.is_master && (is_new || !was_master) then [HelloCb.master n] else []) ++
    [HelloCb.helloReceived n])

/-- The field checks the hello branch of `discover_message_cb` performs on
the parsed JSON (`data` object, string `hostName`, boolean
`data.isMaster` and `data.isMasterEligible`, numeric `data.weight`,
string `data.address`; `data.advertisement` is optional and untyped).
Any missing or mistyped required field drops the datagram (`none`). -/
def discover_parse_hello (json : Json) (pid iid : String) : Option Hello :=
  match json.getCS "data" with
  | some data =>
    if data.isObj then
      match json.getCS "hostName" with
      | some (.str host) =>
        match data.getCS "isMaster" with
        | some (.bool im) =>
          match data.getCS "isMasterEligible" with
          | some (.bool ime) =>
            match data.getCS "weight" with
            | some (.num w) =>
              match data.getCS "address" with
              | some (.str addr) =>
                some { pid := pid, iid := iid, hostname := host, is_master := im,
                       is_master_eligible := ime, weight := w, address := addr,
                       advertisement := data.getCS "advertisement" }
              | _ => none
            | _ => none
          | _ => none
        | _ => none
      | _ => none
    else none
  | none => none

/-- An effect of the message dispatcher: either a hello lifecycle callback
or a channel callback. -/
inductive MsgEffect where
  | added (n : Node) : MsgEffect
  | master (n : Node) : MsgEffect
  | helloReceived (n : Node) : MsgEffect
  | channel (call : ChannelCall) : MsgEffect

/-- Whether a dispatcher effect is a channel-registry callback. -/
def MsgEffect.isChannel : MsgEffect → Bool
  | .channel _ => true
  | _ => false

/-- The event routing of `discover_message_cb` (discover.c), after the
`pid`/`iid` checks succeeded and the `event` string was read: a datagram
whose event is exactly `"hello"` goes to the peer-table branch (and is
dropped there if a required field is missing), every other event string
goes to the channel registry. -/
def discover_handle_event (matchER : String → String → Option Bool)
    (pid iid : String) (nodes : List Node) (channels : List Channel)
    (ip : String) (port : Nat) (now : Int) (event : String) (json : Json) :
    List Node × List MsgEffect :=
  if event = "hello" then
    match discover_parse_hello json pid iid with
    | some h =>
      let r := discover_process_hello nodes ip port now h
      (r.1, r.2.map fun cb =>
        match cb with
        | .added n => MsgEffect.added n
        | .master n => MsgEffect.master n
        | .helloReceived n => MsgEffect.helloReceived n)
    | none => (nodes, [])
  else
    (nodes, (discover_dispatch matchER event json channels).map MsgEffect.channel)

/-- The expiry test of `discover_thread_check` (discover.c): a record is
dead when the current time is before its `last_seen` (clock skew) or its
age in seconds strictly exceeds the applicable timeout (milliseconds)
divided by 1000 with C truncating integer division (`Int.div`). -/
def discover_node_expired (now node_timeout master_timeout : Int) (n : Node) : Bool :=
  decide (now < n.last_seen) ||
  decide (Int.tdiv (if n.data.is_master then master_timeout else node_timeout) 1000
          < now - n.last_seen)

/-- The outcome of one pass of `discover_thread_check` over the node list:
the surviving records (in list order), the removed records, the `removed`
callback invocations (in invocation order) and the three election
counters. -/
structure CheckScan where
  survivors : List Node
  removed : List Node
  removed_cbs : List Node
  masters_found : Int
  masters_higher_weight_found : Int
  masters_eligible_higher_weight_found : Bool

/-- The node-list pass of `discover_thread_check` (discover.c): walk the
list; expired records are unlinked, handed to the `removed` callback and
freed; for each surviving record, a master seen within `master_timeout`
bumps `masters_found` (and `masters_higher_weight_found` when its weight
strictly exceeds the local weight), and a non-master eligible record with
weight strictly above the local weight raises
`masters_eligible_higher_weight_found`. -/
def discover_check_scan (local_weight : ℚ) (now node_timeout master_timeout : Int) :
    List Node → CheckScan
  | [] => ⟨[], [], [], 0, 0, false⟩
  | n :: rest =>
    let s := discover_check_scan local_weight now node_timeout master_timeout rest
    if discover_node_expired now node_timeout master_timeout n then
      { s with removed := n :: s.removed, removed_cbs := n :: s.removed_cbs }
    else
      { s with
        survivors := n :: s.survivors,
        masters_found := s.masters_found +
          (if n.data.is_master && decide (now - n.last_seen < master_timeout)
           then 1 else 0),
        masters_higher_weight_found := s.masters_higher_weight_found +
          (if n.data.is_master && decide (now - n.last_seen < master_timeout)
              && decide (local_weight < n.data.weight)
           then 1 else 0),
        masters_eligible_higher_weight_found :=
          s.masters_eligible_higher_weight_found ||
          (!n.data.is_master && n.data.is_master_eligible &&
           decide (local_weight < n.data.weight)) }

/-- The election rule of `discover_thread_check` (discover.c): starting
from the current local `is_master` flag (`was_master`), demote when master
and `masters_required ≤ masters_higher_weight_found`; then promote when
not master at entry, eligible, `masters_higher_weight_found <
masters_required` and no higher-weight eligible non-master was seen.
Returns the new `is_master` flag, whether the `demotion` callback fired
and whether the `promotion` callback fired. -/
def discover_check_election (is_master is_master_eligible : Bool)
    (masters_required masters_higher_weight_found : Int)
    (masters_eligible_higher_weight_found : Bool) : Bool × Bool × Bool :=
  let was_master := is_master
  let demote_cond := was_master && decide (masters_required ≤ masters_higher_weight_found)
  let is_master1 := if demote_cond then false else is_master
  let promote_cond := !was_master && is_master_eligible &&
    decide (masters_higher_weight_found < masters_required) &&
    !masters_eligible_higher_weight_found
  let is_master2 := if promote_cond then true else is_master1
  (is_master2, demote_cond, promote_cond)

/-- The outcome of one iteration of `discover_thread_check`. -/
structure CheckResult where
  scan : CheckScan
  is_master : Bool
  demotion_fired : Bool
  promotion_fired : Bool

/-- One full iteration of `discover_thread_check` (discover.c): scan the
node list (removal, `removed` callbacks, counters), then apply the
election rule to the local flags. -/
def discover_thread_check_iter (opts : Options) (is_master is_master_eligible : Bool)
    (now : Int) (nodes : List Node) : CheckResult :=
  let s := discover_check_scan opts.weight now opts.node_timeout opts.master_timeout nodes
  let e := discover_check_election is_master is_master_eligible
    opts.masters_required s.masters_higher_weight_found
    s.masters_eligible_higher_weight_found
  ⟨s, e.1, e.2.1, e.2.2⟩

/-- The mutable local election state of a discover instance: the local
`is_master` and `is_master_eligible` flags and the peer table. -/
structure DState where
  is_master : Bool
  is_master_eligible : Bool
  nodes : List Node

/-- Model of `discover_promote` (discover.c): set both local flags. -/
def discover_promote (s : DState) : DState :=
  { s with is_master := true, is_master_eligible := true }

/-- Model of `discover_demote` (discover.c): clear `is_master`; the
instance stays eligible exactly when the demotion is not permanent. -/
def discover_demote (s : DState) (permanent : Bool) : DState :=
  { s with is_master := false, is_master_eligible := !permanent }

/-- An asynchronous event hitting the local election state: a hello
datagram received from a peer, or one iteration of the check loop. -/
inductive DStep where
  | hello (ip : String) (port : Nat) (now : Int) (h : Hello) : DStep
  | check (now : Int) : DStep

/-- How one event updates the local election state: a received hello only
updates the peer table (`discover_message_cb` never writes the local
flags); a check iteration replaces the peer table by the survivors and
the local `is_master` flag by the election outcome
(`discover_thread_check` never writes `is_master_eligible`). -/
def discover_dstep (opts : Options) (s : DState) : DStep → DState
  | .hello ip port now h =>
    { s with nodes := (discover_process_hello s.nodes ip port now h).1 }
  | .check now =>
    let r := discover_thread_check_iter opts s.is_master s.is_master_eligible now s.nodes
    { s with is_master := r.is_master, nodes := r.scan.survivors }

/-- The startup weight loop of `discover_create` (discover.c): starting
from the wall-clock seconds, divide by 10 while the value strictly
exceeds 1. -/
def discover_weight_loop (w : ℚ) : ℚ :=
  if h : 1 < w then discover_weight_loop (w / 10) else w
termination_by Nat.ceil w
decreasing_by
  have hc2 : 2 ≤ Nat.ceil w := by
    have : 1 < Nat.ceil w := Nat.lt_ceil.mpr (by exact_mod_cast h)
    omega
  have hw : w ≤ (Nat.ceil w : ℚ) := Nat.le_ceil w
  have hstep : w / 10 ≤ ((Nat.ceil w - 1 : ℕ) : ℚ) := by
    have hcast : ((Nat.ceil w - 1 : ℕ) : ℚ) = (Nat.ceil w : ℚ) - 1 := by
      have : (1 : ℕ) ≤ Nat.ceil w := by omega
      push_cast [this]
      ring
    rw [hcast]
    have h2 : (2 : ℚ) ≤ (Nat.ceil w : ℚ) := by exact_mod_cast hc2
    nlinarith
  have : Nat.ceil (w / 10) ≤ Nat.ceil w - 1 := Nat.ceil_le.mpr hstep
  omega

/-- The startup weight of `discover_create` (discover.c): run the division
loop on the wall-clock seconds, then multiply by −1. -/
def discover_create_weight (t : ℚ) : ℚ :=
  discover_weight_loop t * (-1)

/-- The default option block installed by `discover_create` (discover.c);
the wall-clock seconds (for the default weight) and the host name are
parameters of the model. -/
def discover_create_options (t : ℚ) (hostname : String) : Options :=
  { hello_interval := 1000, check_interval := 2000, node_timeout := 2000,
    master_timeout := 2000, address := "0.0.0.0", port := 12345,
    broadcast := "255.255.255.255", multicast := none, multicast_ttl := 1,
    unicast := none, key := none, masters_required := 1,
    weight := discover_create_weight t, client := false, reuse_addr := true,
    ignore_process := true, ignore_instance := true, advertisement := none,
    hostname := hostname }

/-- C5: `discover_set_option` rejects a `checkInterval` write violating
`checkInterval ≤ nodeTimeout`, a `nodeTimeout` write violating
`checkInterval ≤ nodeTimeout ≤ masterTimeout` and a `masterTimeout` write
violating `nodeTimeout ≤ masterTimeout`, each judged against the current
values of the other options; on every rejection it returns `-1` and
leaves the whole option block unchanged. -/
theorem set_option_interval_guards (o : Options) (n : Int) :
    (o.node_timeout < n →
      discover_set_option o "checkInterval" (.int n) = (o, -1)) ∧
    ((n < o.check_interval ∨ o.master_timeout < n) →
      discover_set_option o "nodeTimeout" (.int n) = (o, -1)) ∧
    (n < o.node_timeout →
      discover_set_option o "masterTimeout" (.int n) = (o, -1)) := by
  have e1 : ("checkInterval" : String) ≠ "helloInterval" := by decide
  have e2 : ("nodeTimeout" : String) ≠ "helloInterval" := by decide
  have e3 : ("nodeTimeout" : String) ≠ "checkInterval" := by decide
  have e4 : ("masterTimeout" : String) ≠ "helloInterval" := by decide
  have e5 : ("masterTimeout" : String) ≠ "checkInterval" := by decide
  have e6 : ("masterTimeout" : String) ≠ "nodeTimeout" := by decide
  refine ⟨fun h => ?_, fun h => ?_, fun h => ?_⟩
  · have hc : ¬(n ≤ o.node_timeout) := by omega
    simp only [discover_set_option, if_neg e1, if_pos rfl, if_neg hc, if_true]
  · have hc : ¬(o.check_interval ≤ n ∧ n ≤ o.master_timeout) := by omega
    simp only [discover_set_option, if_neg e2, if_neg e3, if_pos rfl, if_neg hc,
      if_true]
  · have hc : ¬(o.node_timeout ≤ n) := by omega
    simp only [discover_set_option, if_neg e4, if_neg e5, if_neg e6, if_pos rfl,
      if_neg hc, if_true]

/-- Witness for C5: on the default options (all three intervals 2000 ms),
`checkInterval := 3000`, `nodeTimeout := 3000` and `masterTimeout := 1000`
are all rejected without change. -/
theorem set_option_interval_guards_witness :
    discover_set_option (discover_create_options 5 "host") "checkInterval"
        (.int 3000) = (discover_create_options 5 "host", -1) ∧
    discover_set_option (discover_create_options 5 "host") "nodeTimeout"
        (.int 3000) = (discover_create_options 5 "host", -1) ∧
    discover_set_option (discover_create_options 5 "host") "masterTimeout"
        (.int 1000) = (discover_create_options 5 "host", -1) :=
  ⟨(set_option_interval_guards _ 3000).1 (by norm_num [discover_create_options]),
   (set_option_interval_guards _ 3000).2.1
     (Or.inr (by norm_num [discover_create_options])),
   (set_option_interval_guards _ 1000).2.2 (by norm_num [discover_create_options])⟩

/-- C10: `discover_set_option` with an option name outside the recognized
set returns `-1` and leaves every option field unchanged, whatever the
value argument is. -/
theorem set_option_unknown_name (o : Options) (name : String) (v : OptionValue)
    (h : name ∉ discover_option_names) :
    discover_set_option o name v = (o, -1) := by
  simp only [discover_option_names, List.mem_cons, List.not_mem_nil, or_false,
    not_or] at h
  obtain ⟨h1, h2, h3, h4, h5, h6, h7, h8, h9, h10, h11, h12, h13, h14, h15, h16,
    h17, h18, h19⟩ := h
  simp [discover_set_option, h1, h2, h3, h4, h5, h6, h7, h8, h9, h10, h11, h12,
    h13, h14, h15, h16, h17, h18, h19]

/-- Witness for C10: the unrecognized name `"bogus"` is rejected without
change. -/
theorem set_option_unknown_name_witness :
    discover_set_option (discover_create_options 5 "host") "bogus" (.int 7) =
      (discover_create_options 5 "host", -1) :=
  set_option_unknown_name _ "bogus" _ (by decide)

/-- Counterexample for C8: on a registry already holding a binding for
event `"a"` with callback `1`, `join("a", callback 2)` followed by
`leave("a")` yields the empty registry, not the original one — the join
replaced the stored callback in place, so the leave removed the original
binding. -/
theorem join_leave_not_roundtrip :
    discover_leave "a" (discover_join "a" (some 2) none [⟨"a", some 1, none⟩]) ≠
      [({ event := "a", fct := some 1, user := none } : Channel)] := by
  decide

/-- C8 (amended): `join(e, f) ; leave(e)` restores the channel registry
exactly, provided no binding with event `e` existed before the join (for
a pre-existing binding the pair removes it instead, because join replaces
the stored callback in place). -/
theorem join_leave_roundtrip (channels : List Channel) (e : String)
    (f u : Option Nat) (h : ∀ c ∈ channels, c.event ≠ e) :
    discover_leave e (discover_join e f u channels) = channels := by
  induction channels with
  | nil => simp [discover_join, discover_leave]
  | cons c rest ih =>
    have hc : c.event ≠ e := h c (by simp)
    simp only [discover_join, if_neg hc, discover_leave]
    rw [ih (fun x hx => h x (by simp [hx]))]

/-- Witness for C8 (amended): joining and leaving `"a"` on a registry that
only holds `"b"` restores it. -/
theorem join_leave_roundtrip_witness :
    discover_leave "a" (discover_join "a" (some 2) none [⟨"b", some 1, none⟩]) =
      [({ event := "b", fct := some 1, user := none } : Channel)] :=
  join_leave_roundtrip _ "a" (some 2) none (by decide)

/-- Helper: the startup weight loop keeps a positive input positive and
stops at a value at most 1. -/
theorem discover_weight_loop_bounds (w : ℚ) (hw : 0 < w) :
    0 < discover_weight_loop w ∧ discover_weight_loop w ≤ 1 := by
  generalize hn : Nat.ceil w = n
  induction n using Nat.strong_induction_on generalizing w with
  | _ n ih =>
    unfold discover_weight_loop
    split_ifs with h
    · have hlt : Nat.ceil (w / 10) < n := by
        subst hn
        have hc2 : 2 ≤ Nat.ceil w := by
          have : 1 < Nat.ceil w := Nat.lt_ceil.mpr (by exact_mod_cast h)
          omega
        have hw2 : w ≤ (Nat.ceil w : ℚ) := Nat.le_ceil w
        have h1 : (1 : ℕ) ≤ Nat.ceil w := by omega
        have hstep : w / 10 ≤ ((Nat.ceil w - 1 : ℕ) : ℚ) := by
          have hcast : ((Nat.ceil w - 1 : ℕ) : ℚ) = (Nat.ceil w : ℚ) - 1 := by
            push_cast [h1]
            ring
          rw [hcast]
          have h2 : (2 : ℚ) ≤ (Nat.ceil w : ℚ) := by exact_mod_cast hc2
          nlinarith
        have := Nat.ceil_le.mpr hstep
        omega
      exact ih _ hlt (w / 10) (by positivity) rfl
    · exact ⟨hw, not_lt.mp h⟩

/-- Helper: the weight loop sends 10 to exactly 1 (one division, then the
guard `1 < 1` fails). -/
theorem discover_weight_loop_ten : discover_weight_loop 10 = 1 := by
  unfold discover_weight_loop
  rw [dif_pos (by norm_num)]
  norm_num
  unfold discover_weight_loop
  rw [dif_neg (by norm_num)]

/-- Counterexample for C9: at the positive seconds value 10 the loop stops
at exactly 1 (the guard is `1 < w`, not `1 ≤ w`), so the computed default
weight is exactly -1, which is not strictly inside (-1, 0). -/
theorem create_weight_not_in_open_interval :
    ¬(-1 < discover_create_weight 10 ∧ discover_create_weight 10 < 0) := by
  have h : discover_create_weight 10 = -1 := by
    unfold discover_create_weight
    rw [discover_weight_loop_ten]
    norm_num
  rw [h]
  norm_num

/-- C9 (amended): for every positive wall-clock seconds value the default
weight computed at startup lies in the half-open interval [-1, 0); it can
equal -1 exactly (when the dividing loop stops at exactly 1, e.g. for a
power of ten), so the open interval (-1, 0) of the claim is not always
attained. -/
theorem create_weight_bounds (t : ℚ) (ht : 0 < t) :
    -1 ≤ discover_create_weight t ∧ discover_create_weight t < 0 := by
  obtain ⟨h1, h2⟩ := discover_weight_loop_bounds t ht
  unfold discover_create_weight
  constructor <;> nlinarith

/-- Witness for C9 (amended): at seconds value 3 the computed weight is in
[-1, 0). -/
theorem create_weight_bounds_witness :
    -1 ≤ discover_create_weight 3 ∧ discover_create_weight 3 < 0 :=
  create_weight_bounds 3 (by norm_num)

/-- Helper: the sweep removes exactly the records failing the liveness
test, in traversal order. -/
theorem check_scan_removed_eq (lw : ℚ) (now nt mt : Int) (nodes : List Node) :
    (discover_check_scan lw now nt mt nodes).removed =
      nodes.filter (fun n => discover_node_expired now nt mt n) := by
  induction nodes with
  | nil => rfl
  | cons n rest ih =>
    simp only [discover_check_scan, List.filter_cons]
    by_cases h : discover_node_expired now nt mt n = true <;> simp [h, ih]

/-- Helper: the sweep keeps exactly the records passing the liveness test,
in traversal order. -/
theorem check_scan_survivors_eq (lw : ℚ) (now nt mt : Int) (nodes : List Node) :
    (discover_check_scan lw now nt mt nodes).survivors =
      nodes.filter (fun n => !discover_node_expired now nt mt n) := by
  induction nodes with
  | nil => rfl
  | cons n rest ih =>
    simp only [discover_check_scan, List.filter_cons]
    by_cases h : discover_node_expired now nt mt n = true <;> simp [h, ih]

/-- Helper: the `removed` callback is invoked exactly once per removed
record, in removal order. -/
theorem check_scan_removed_cbs_eq (lw : ℚ) (now nt mt : Int) (nodes : List Node) :
    (discover_check_scan lw now nt mt nodes).removed_cbs =
      (discover_check_scan lw now nt mt nodes).removed := by
  induction nodes with
  | nil => rfl
  | cons n rest ih =>
    simp only [discover_check_scan]
    by_cases h : discover_node_expired now nt mt n = true <;> simp [h, ih]

/-- Helper: `masters_found` counts the surviving masters seen strictly
within `master_timeout`. -/
theorem check_scan_mf_eq (lw : ℚ) (now nt mt : Int) (nodes : List Node) :
    (discover_check_scan lw now nt mt nodes).masters_found =
      (((discover_check_scan lw now nt mt nodes).survivors.countP
        (fun n => n.data.is_master && decide (now - n.last_seen < mt))) : ℤ) := by
  induction nodes with
  | nil => rfl
  | cons n rest ih =>
    simp only [discover_check_scan]
    by_cases h : discover_node_expired now nt mt n = true
    · simp [h, ih]
    · by_cases hp : (n.data.is_master && decide (now - n.last_seen < mt)) = true <;>
        simp [h, hp, ih, List.countP_cons]

/-- Helper: `masters_higher_weight_found` counts the surviving masters
seen strictly within `master_timeout` whose weight strictly exceeds the
local weight. -/
theorem check_scan_mhw_eq (lw : ℚ) (now nt mt : Int) (nodes : List Node) :
    (discover_check_scan lw now nt mt nodes).masters_higher_weight_found =
      (((discover_check_scan lw now nt mt nodes).survivors.countP
        (fun n => n.data.is_master && decide (now - n.last_seen < mt) &&
          decide (lw < n.data.weight))) : ℤ) := by
  induction nodes with
  | nil => rfl
  | cons n rest ih =>
    simp only [discover_check_scan]
    by_cases h : discover_node_expired now nt mt n = true
    · simp [h, ih]
    · by_cases hp : (n.data.is_master && decide (now - n.last_seen < mt) &&
          decide (lw < n.data.weight)) = true <;>
        simp [h, hp, ih, List.countP_cons]

/-- Helper: with a positive `master_timeout`, every surviving master was
seen strictly within `master_timeout`: survival bounds its age by
`master_timeout / 1000` (truncated), which is below `master_timeout`. -/
theorem survivor_master_fresh {now nt mt : Int} {n : Node} (hmt : 0 < mt)
    (hs : discover_node_expired now nt mt n = false)
    (hm : n.data.is_master = true) : now - n.last_seen < mt := by
  simp only [discover_node_expired, hm, if_true, Bool.or_eq_false_iff,
    decide_eq_false_iff_not, not_lt] at hs
  obtain ⟨h1, h2⟩ := hs
  rw [Int.tdiv_eq_ediv (le_of_lt hmt) (by norm_num)] at h2
  omega

/-- C2: one sweep of the check loop removes a record R exactly when
`now < R.last_seen` or `now − R.last_seen` strictly exceeds
`(R.is_master ? master_timeout : node_timeout) / 1000` (truncating
division); the survivors are exactly the others; the `removed` callback
fires once per removed record; and a non-master record whose age equals
exactly `node_timeout / 1000` seconds is retained. -/
theorem check_sweep_removal_rule (lw : ℚ) (now nt mt : Int) (nodes : List Node) :
    (discover_check_scan lw now nt mt nodes).removed =
      nodes.filter (fun n =>
        decide (now < n.last_seen) ||
        decide (Int.tdiv (if n.data.is_master then mt else nt) 1000
                < now - n.last_seen)) ∧
    (discover_check_scan lw now nt mt nodes).survivors =
      nodes.filter (fun n =>
        !(decide (now < n.last_seen) ||
          decide (Int.tdiv (if n.data.is_master then mt else nt) 1000
                  < now - n.last_seen))) ∧
    (discover_check_scan lw now nt mt nodes).removed_cbs =
      (discover_check_scan lw now nt mt nodes).removed ∧
    (∀ n : Node, n.data.is_master = false → 0 ≤ nt →
      now - n.last_seen = Int.tdiv nt 1000 →
      discover_node_expired now nt mt n = false) := by
  refine ⟨check_scan_removed_eq lw now nt mt nodes,
    check_scan_survivors_eq lw now nt mt nodes,
    check_scan_removed_cbs_eq lw now nt mt nodes, ?_⟩
  intro n hm hnt hage
  have htd : 0 ≤ Int.tdiv nt 1000 := Int.tdiv_nonneg hnt (by norm_num)
  simp only [discover_node_expired, hm, Bool.false_eq_true, if_false,
    Bool.or_eq_false_iff, decide_eq_false_iff_not, not_lt]
  omega

/-- Witness for C2: with `node_timeout = 2000` ms, a non-master record of
age exactly 2 seconds is retained. -/
theorem check_sweep_removal_rule_witness :
    discover_node_expired 100 2000 2000
      { pid := "p", iid := "i", hostname := "h", address := "10.0.0.2",
        port := 12345, last_seen := 98,
        data := { is_master := false, is_master_eligible := true, weight := 0,
                  address := "10.0.0.2", advertisement := none } } = false :=
  (check_sweep_removal_rule 0 100 2000 2000 []).2.2.2 _ rfl (by norm_num)
    (by decide)

/-- C3: in a check-loop pass, `masters_found` counts the surviving records
with `is_master` whose last-seen age is strictly within `master_timeout`,
and — for a positive `master_timeout`, under which survival already
implies that freshness — `masters_higher_weight_found` counts the
surviving masters whose weight strictly exceeds the local weight; a
record whose weight equals the local weight is never counted there. -/
theorem check_scan_counter_rule (lw : ℚ) (now nt mt : Int) (nodes : List Node) :
    (discover_check_scan lw now nt mt nodes).masters_found =
      (((discover_check_scan lw now nt mt nodes).survivors.countP
        (fun n => n.data.is_master && decide (now - n.last_seen < mt))) : ℤ) ∧
    (0 < mt →
      (discover_check_scan lw now nt mt nodes).masters_higher_weight_found =
        (((discover_check_scan lw now nt mt nodes).survivors.countP
          (fun n => n.data.is_master && decide (lw < n.data.weight))) : ℤ)) ∧
    ((∀ n ∈ nodes, n.data.weight = lw) →
      (discover_check_scan lw now nt mt nodes).masters_higher_weight_found = 0) := by
  refine ⟨check_scan_mf_eq lw now nt mt nodes, fun hmt => ?_, fun hw => ?_⟩
  · rw [check_scan_mhw_eq lw now nt mt nodes]
    congr 1
    apply List.countP_congr
    intro n hn
    rw [check_scan_survivors_eq lw now nt mt nodes] at hn
    rw [List.mem_filter] at hn
    obtain ⟨hmem, hsurv⟩ := hn
    by_cases hm : n.data.is_master = true
    · have hfresh : now - n.last_seen < mt :=
        survivor_master_fresh hmt (by simpa using hsurv) hm
      simp [hm, hfresh]
    · simp only [Bool.not_eq_true] at hm
      simp [hm]
  · rw [check_scan_mhw_eq lw now nt mt nodes]
    have : ((discover_check_scan lw now nt mt nodes).survivors.countP
        (fun n => n.data.is_master && decide (now - n.last_seen < mt) &&
          decide (lw < n.data.weight))) = 0 := by
      apply List.countP_eq_zero.mpr
      intro n hn
      rw [check_scan_survivors_eq lw now nt mt nodes] at hn
      have hmem : n ∈ nodes := List.mem_of_mem_filter hn
      have : n.data.weight = lw := hw n hmem
      simp [this]
    rw [this]
    rfl

/-- A sample peer record used by concrete witnesses. -/
def sampleNode (im elig : Bool) (w : ℚ) (seen : Int) : Node :=
  { pid := "pid-1", iid := "iid-1", hostname := "peer", address := "10.0.0.2",
    port := 12345, last_seen := seen,
    data := { is_master := im, is_master_eligible := elig, weight := w,
              address := "10.0.0.2", advertisement := none } }

/-- A sample option block used by concrete witnesses: the defaults with
local weight 0. -/
def sampleOpts : Options :=
  { discover_create_options 5 "host" with weight := 0 }

/-- Witness for C3: a surviving master of weight 1 and age 0, against a
local weight 0 and `master_timeout = 2000 > 0`, is counted by the
weight-only count, and a master whose weight equals the local weight
leaves `masters_higher_weight_found` at 0. -/
theorem check_scan_counter_rule_witness :
    (discover_check_scan 0 100 2000 2000 [sampleNode true true 1 100]).masters_higher_weight_found =
      (((discover_check_scan 0 100 2000 2000 [sampleNode true true 1 100]).survivors.countP
        (fun n => n.data.is_master && decide ((0 : ℚ) < n.data.weight))) : ℤ) ∧
    (discover_check_scan 0 100 2000 2000 [sampleNode true true 0 100]).masters_higher_weight_found = 0 :=
  ⟨(check_scan_counter_rule 0 100 2000 2000 [sampleNode true true 1 100]).2.1
      (by norm_num),
   (check_scan_counter_rule 0 100 2000 2000 [sampleNode true true 0 100]).2.2
      (by intro n hn
          rw [List.mem_singleton] at hn
          subst hn
          rfl)⟩

/-- Helper: the election rule of the check loop, characterized: demotion
fires exactly when master at entry with `masters_required ≤
masters_higher_weight_found`; promotion fires exactly when not master at
entry, eligible, below the required count and with no higher-weight
eligible non-master; each firing sets the flag accordingly, and without
either the flag is unchanged. -/
theorem check_election_spec (m elig : Bool) (mr mhw : Int) (mehw : Bool) :
    ((discover_check_election m elig mr mhw mehw).2.1 = true ↔
      (m = true ∧ mr ≤ mhw)) ∧
    ((discover_check_election m elig mr mhw mehw).2.2 = true ↔
      (m = false ∧ elig = true ∧ mhw < mr ∧ mehw = false)) ∧
    ((discover_check_election m elig mr mhw mehw).2.1 = true →
      (discover_check_election m elig mr mhw mehw).1 = false) ∧
    ((discover_check_election m elig mr mhw mehw).2.2 = true →
      (discover_check_election m elig mr mhw mehw).1 = true) ∧
    ((discover_check_election m elig mr mhw mehw).2.1 = false →
      (discover_check_election m elig mr mhw mehw).2.2 = false →
      (discover_check_election m elig mr mhw mehw).1 = m) := by
  cases m <;> cases elig <;> cases mehw <;>
    by_cases h : mr ≤ mhw <;>
      simp_all [discover_check_election]

/-- C1: in one check-loop iteration, the local instance demotes itself
(clears `is_master` and fires the `demotion` callback) exactly when it
enters the iteration as master with `masters_required ≤
masters_higher_weight_found`; it promotes itself (sets `is_master` and
fires the `promotion` callback) exactly when it enters as non-master,
eligible, with `masters_higher_weight_found < masters_required` and no
surviving non-master eligible record of weight strictly above the local
weight; otherwise `is_master` is unchanged. -/
theorem thread_check_election_rule (opts : Options) (m elig : Bool) (now : Int)
    (nodes : List Node) :
    ((discover_thread_check_iter opts m elig now nodes).demotion_fired = true ↔
      (m = true ∧ opts.masters_required ≤
        (discover_check_scan opts.weight now opts.node_timeout opts.master_timeout
          nodes).masters_higher_weight_found)) ∧
    ((discover_thread_check_iter opts m elig now nodes).promotion_fired = true ↔
      (m = false ∧ elig = true ∧
        (discover_check_scan opts.weight now opts.node_timeout opts.master_timeout
          nodes).masters_higher_weight_found < opts.masters_required ∧
        (discover_check_scan opts.weight now opts.node_timeout opts.master_timeout
          nodes).masters_eligible_higher_weight_found = false)) ∧
    ((discover_thread_check_iter opts m elig now nodes).demotion_fired = true →
      (discover_thread_check_iter opts m elig now nodes).is_master = false) ∧
    ((discover_thread_check_iter opts m elig now nodes).promotion_fired = true →
      (discover_thread_check_iter opts m elig now nodes).is_master = true) ∧
    ((discover_thread_check_iter opts m elig now nodes).demotion_fired = false →
      (discover_thread_check_iter opts m elig now nodes).promotion_fired = false →
      (discover_thread_check_iter opts m elig now nodes).is_master = m) :=
  check_election_spec m elig opts.masters_required
    (discover_check_scan opts.weight now opts.node_timeout opts.master_timeout
      nodes).masters_higher_weight_found
    (discover_check_scan opts.weight now opts.node_timeout opts.master_timeout
      nodes).masters_eligible_higher_weight_found

/-- Witness for C1: with the default options at local weight 0 and
`masters_required = 1`, a master entering a check iteration that sees one
surviving master of weight 1 demotes, and a non-master eligible instance
seeing an empty table promotes. -/
theorem thread_check_election_rule_witness :
    (discover_thread_check_iter sampleOpts true true 100
      [sampleNode true true 1 100]).demotion_fired = true ∧
    (discover_thread_check_iter sampleOpts false true 100 []).promotion_fired = true :=
  ⟨(thread_check_election_rule sampleOpts true true 100
      [sampleNode true true 1 100]).1.mpr ⟨rfl, by decide⟩,
   (thread_check_election_rule sampleOpts false true 100 []).2.1.mpr
      ⟨rfl, rfl, by decide, rfl⟩⟩

/-- Helper: the upsert reports a new record exactly when no stored record
matches the sender's identity. -/
theorem upsert_is_new_eq (ip : String) (port : Nat) (now : Int) (h : Hello)
    (nodes : List Node) :
    (discover_upsert ip port now h nodes).2.2.1 =
      (nodes.find? (discover_node_matches h)).isNone := by
  induction nodes with
  | nil => rfl
  | cons m rest ih =>
    by_cases hm : discover_node_matches h m = true
    · simp [discover_upsert, hm]
    · simp only [Bool.not_eq_true] at hm
      simp [discover_upsert, hm, ih]

/-- Helper: the pre-update master flag reported by the upsert is the
stored record's flag when the identity was known, `false` otherwise. -/
theorem upsert_was_master_eq (ip : String) (port : Nat) (now : Int) (h : Hello)
    (nodes : List Node) :
    (discover_upsert ip port now h nodes).2.2.2 =
      ((nodes.find? (discover_node_matches h)).map
        (fun m => m.data.is_master)).getD false := by
  induction nodes with
  | nil => rfl
  | cons m rest ih =>
    by_cases hm : discover_node_matches h m = true
    · simp [discover_upsert, hm]
    · simp only [Bool.not_eq_true] at hm
      simp [discover_upsert, hm, ih]

/-- Helper: the record the upsert returns carries the hello's master
flag, whether it was created or updated. -/
theorem upsert_node_is_master (ip : String) (port : Nat) (now : Int) (h : Hello)
    (nodes : List Node) :
    (discover_upsert ip port now h nodes).2.1.data.is_master = h.is_master := by
  induction nodes with
  | nil => rfl
  | cons m rest ih =>
    by_cases hm : discover_node_matches h m = true
    · simp [discover_upsert, hm, discover_update_node]
    · simp only [Bool.not_eq_true] at hm
      simp [discover_upsert, hm, ih]

/-- Helper: in the hello branch's callback sequence — an optional `added`,
then an optional `master`, then `helloReceived` — an `added` entry can
only sit at the head, and every entry after the head is not an `added`;
hence any `added` invocation strictly precedes the others. -/
theorem hello_cbs_added_first (n : Node) (c1 c2 : Bool) :
    ((∃ m, HelloCb.added m ∈ ((if c1 then [HelloCb.added n] else []) ++
        (if c2 then [HelloCb.master n] else []) ++ [HelloCb.helloReceived n])) →
      ∃ m, ((if c1 then [HelloCb.added n] else []) ++
        (if c2 then [HelloCb.master n] else []) ++
        [HelloCb.helloReceived n]).head? = some (HelloCb.added m)) ∧
    (∀ y ∈ (((if c1 then [HelloCb.added n] else []) ++
        (if c2 then [HelloCb.master n] else []) ++
        [HelloCb.helloReceived n]).drop 1), y.isAdded = false) := by
  cases c1 <;> cases c2 <;> simp [HelloCb.isAdded]

/-- C4: for every hello that passed the dispatcher's field checks, the
`added` callback fires exactly when the sender's `(pid, iid)` was
previously unknown; the `master` callback fires exactly when the updated
record is a master and the record is new or was not a master before; the
`helloReceived` callback always fires; and any `added` invocation comes
strictly before the `master` and `helloReceived` invocations for the same
hello (an `added` can only occupy the head of the invocation sequence,
and every later invocation is not an `added`). -/
theorem process_hello_callback_rule (nodes : List Node) (ip : String)
    (port : Nat) (now : Int) (h : Hello) :
    ((∃ n, HelloCb.added n ∈ (discover_process_hello nodes ip port now h).2) ↔
      nodes.find? (discover_node_matches h) = none) ∧
    ((∃ n, HelloCb.master n ∈ (discover_process_hello nodes ip port now h).2) ↔
      (h.is_master = true ∧
        (nodes.find? (discover_node_matches h) = none ∨
         ∃ m, nodes.find? (discover_node_matches h) = some m ∧
           m.data.is_master = false))) ∧
    (∃ n, HelloCb.helloReceived n ∈ (discover_process_hello nodes ip port now h).2) ∧
    ((∃ n, HelloCb.added n ∈ (discover_process_hello nodes ip port now h).2) →
      ∃ n, (discover_process_hello nodes ip port now h).2.head? =
        some (HelloCb.added n)) ∧
    (∀ y ∈ (discover_process_hello nodes ip port now h).2.drop 1,
      y.isAdded = false) := by
  have hnew := upsert_is_new_eq ip port now h nodes
  have hwm := upsert_was_master_eq ip port now h nodes
  have him := upsert_node_is_master ip port now h nodes
  have horder := hello_cbs_added_first (discover_upsert ip port now h nodes).2.1
    (discover_upsert ip port now h nodes).2.2.1
    ((discover_upsert ip port now h nodes).2.1.data.is_master &&
      ((discover_upsert ip port now h nodes).2.2.1 ||
        !(discover_upsert ip port now h nodes).2.2.2))
  rcases hf : nodes.find? (discover_node_matches h) with _ | m
  · rw [hf] at hnew hwm
    simp only [Option.isNone_none] at hnew
    simp only [Option.map_none', Option.getD_none] at hwm
    refine ⟨?_, ?_, ?_, horder.1, horder.2⟩
    · simp [discover_process_hello, hnew]
    · cases hmm : h.is_master <;>
        simp [discover_process_hello, hnew, him, hmm]
    · simp [discover_process_hello]
  · rw [hf] at hnew hwm
    simp only [Option.isNone_some] at hnew
    simp only [Option.map_some', Option.getD_some] at hwm
    refine ⟨?_, ?_, ?_, horder.1, horder.2⟩
    · simp [discover_process_hello, hnew]
    · cases hmm : h.is_master <;> cases hm2 : m.data.is_master <;>
        simp [discover_process_hello, hnew, him, hwm, hmm, hm2]
    · simp [discover_process_hello]

/-- A sample well-formed hello used by concrete witnesses. -/
def sampleHello : Hello :=
  { pid := "pid-2", iid := "iid-2", hostname := "peer2", is_master := true,
    is_master_eligible := true, weight := 1, address := "10.0.0.3",
    advertisement := none }

/-- Witness for C4: a master hello from an unknown identity hitting an
empty table fires `added`, `master` and `helloReceived`, and the `added`
invocation occupies the head of the invocation sequence. -/
theorem process_hello_callback_rule_witness :
    (∃ n, HelloCb.added n ∈
      (discover_process_hello [] "10.0.0.3" 12345 100 sampleHello).2) ∧
    (∃ n, HelloCb.master n ∈
      (discover_process_hello [] "10.0.0.3" 12345 100 sampleHello).2) ∧
    (∃ n, HelloCb.helloReceived n ∈
      (discover_process_hello [] "10.0.0.3" 12345 100 sampleHello).2) ∧
    (∃ n, (discover_process_hello [] "10.0.0.3" 12345 100 sampleHello).2.head? =
      some (HelloCb.added n)) :=
  ⟨(process_hello_callback_rule [] "10.0.0.3" 12345 100 sampleHello).1.mpr rfl,
   (process_hello_callback_rule [] "10.0.0.3" 12345 100 sampleHello).2.1.mpr
     ⟨rfl, Or.inl rfl⟩,
   (process_hello_callback_rule [] "10.0.0.3" 12345 100 sampleHello).2.2.1,
   (process_hello_callback_rule [] "10.0.0.3" 12345 100 sampleHello).2.2.2.1
     ((process_hello_callback_rule [] "10.0.0.3" 12345 100 sampleHello).1.mpr rfl)⟩

/-- Helper: a state with both local flags cleared keeps them cleared
across any sequence of received hellos and check iterations: hellos never
write the local flags, and the check loop can only promote an eligible
instance. -/
theorem dstep_keeps_demoted (opts : Options) (steps : List DStep) :
    ∀ s : DState, s.is_master = false → s.is_master_eligible = false →
      (steps.foldl (discover_dstep opts) s).is_master = false ∧
      (steps.foldl (discover_dstep opts) s).is_master_eligible = false := by
  induction steps with
  | nil => intro s h1 h2; exact ⟨h1, h2⟩
  | cons a l ih =>
    intro s h1 h2
    rw [List.foldl_cons]
    apply ih
    · cases a with
      | hello ip port now h => simpa [discover_dstep] using h1
      | check now =>
        simp [discover_dstep, discover_thread_check_iter,
          discover_check_election, h1, h2]
    · cases a <;> simpa [discover_dstep] using h2

/-- C6: after `demote(permanent = true)` the instance is not eligible, and
no sequence of received hellos and check-loop iterations ever sets the
local `is_master` flag (or restores eligibility) until an explicit
`promote`, which sets both `is_master` and `is_master_eligible`. -/
theorem demote_permanent_rule (opts : Options) (s : DState) (steps : List DStep) :
    (discover_demote s true).is_master_eligible = false ∧
    (steps.foldl (discover_dstep opts) (discover_demote s true)).is_master = false ∧
    (steps.foldl (discover_dstep opts)
      (discover_demote s true)).is_master_eligible = false ∧
    (∀ u : DState, (discover_promote u).is_master = true ∧
      (discover_promote u).is_master_eligible = true) := by
  obtain ⟨h1, h2⟩ := dstep_keeps_demoted opts steps (discover_demote s true) rfl rfl
  exact ⟨rfl, h1, h2, fun u => ⟨rfl, rfl⟩⟩

/-- Helper: the channel loop invokes exactly the callbacks of the
channels whose pattern compiles and matches, passing each the full parsed
JSON object. -/
theorem dispatch_filterMap (matchER : String → String → Option Bool)
    (event : String) (json : Json) (channels : List Channel) :
    discover_dispatch matchER event json channels =
      channels.filterMap fun c =>
        match c.fct with
        | some f =>
          if matchER c.event event = some true then
            some ⟨f, c.user, event, json⟩
          else none
        | none => none := by
  induction channels with
  | nil => rfl
  | cons c rest ih =>
    rcases hc : c.fct with _ | f
    · simp [discover_dispatch, hc, List.filterMap_cons, ih]
    · by_cases hm : matchER c.event event = some true <;>
        simp [discover_dispatch, hc, hm, List.filterMap_cons, ih]

/-- C7: a datagram whose event field is exactly `"hello"` never invokes a
channel-registry callback, whatever the subscribed patterns and whatever
the regex engine says (it is consumed by the peer-table branch); for any
other event string the dispatcher invokes exactly the callbacks of the
registered channels whose stored pattern compiles and matches the literal
event string, handing each the full parsed JSON object (not just its
`data` member). -/
theorem handle_event_routing (matchER : String → String → Option Bool)
    (pid iid : String) (nodes : List Node) (channels : List Channel)
    (ip : String) (port : Nat) (now : Int) (json : Json) :
    (∀ eff ∈ (discover_handle_event matchER pid iid nodes channels ip port now
        "hello" json).2, eff.isChannel = false) ∧
    (∀ event : String, event ≠ "hello" →
      (discover_handle_event matchER pid iid nodes channels ip port now
          event json).2 =
        (channels.filterMap fun c =>
          match c.fct with
          | some f =>
            if matchER c.event event = some true then
              some (MsgEffect.channel ⟨f, c.user, event, json⟩)
            else none
          | none => none)) := by
  constructor
  · intro eff heff
    rcases hp : discover_parse_hello json pid iid with _ | h
    · simp [discover_handle_event, hp] at heff
    · simp only [discover_handle_event, hp, if_pos rfl] at heff
      obtain ⟨cb, hcb, hmap⟩ := List.mem_map.mp heff
      subst hmap
      cases cb <;> rfl
  · intro event hev
    simp only [discover_handle_event, if_neg hev]
    rw [dispatch_filterMap]
    induction channels with
    | nil => rfl
    | cons c rest ih =>
      rcases hc : c.fct with _ | f
      · simp [List.filterMap_cons, hc, ih]
      · by_cases hm : matchER c.event event = some true <;>
          simp [List.filterMap_cons, hc, hm, ih]

/-- Witness for C7: with one subscribed channel whose pattern matches, a
non-hello event delivers exactly one callback carrying the full JSON
object. -/
theorem handle_event_routing_witness :
    (discover_handle_event (fun p e => some true) "lp" "li" []
        [⟨"sensor", some 7, none⟩] "10.0.0.3" 12345 100 "sensor.temp"
        (Json.str "payload")).2 =
      [MsgEffect.channel ⟨7, none, "sensor.temp", Json.str "payload"⟩] :=
  (handle_event_routing (fun p e => some true) "lp" "li" []
      [⟨"sensor", some 7, none⟩] "10.0.0.3" 12345 100
      (Json.str "payload")).2 "sensor.temp" (by decide)

end CDiscover
